import Mathlib

/-!
Verification development for the TAP repository core
(`app/services/document_processor.py`, `app/services/vector_store.py`,
`app/ai/llm.py`, `app/ai/graph.py`).

Python strings are modelled as `List Char` (or Lean `String` where only
whole-string equality matters); machine integers as `Nat` (all index
arithmetic in the modelled code stays non-negative on the inputs the
claims range over); fallible calls as `Except`; external collaborators
(the embedding model, the LLM, ChromaDB, MongoDB) as explicit oracle
arguments, with observable side effects recorded in event lists.
-/

namespace TAP

/-! ## Definitions: shallow embedding of the modelled code -/

/-- Python `str.isspace`-style predicate restricted to the ASCII whitespace
characters Python's `str.strip()` removes (space, tab, LF, CR, VT, FF).
The modelled repository only ever feeds ASCII whitespace to `strip`. -/
def pyIsSpace (c : Char) : Bool :=
  c = ' ' || c = '\t' || c = '\n' || c = '\r' || c = Char.ofNat 11 || c = Char.ofNat 12

/-- Python `s.strip()`: drop leading and trailing whitespace. -/
def pyStrip (s : List Char) : List Char :=
  ((s.dropWhile pyIsSpace).reverse.dropWhile pyIsSpace).reverse

/-- Python slice `text[s:e]` for `0 ≤ s ≤ e` (clamped at the end of the
string, exactly as Python clamps). -/
def pySlice (text : List Char) (s e : Nat) : List Char :=
  (text.drop s).take (e - s)

/-- `sub` occurs in `text` at index `i` (the occurrence fits inside `text`;
for the non-empty needles used here `take`-truncation makes this exact). -/
abbrev occursAt (text sub : List Char) (i : Nat) : Prop :=
  (text.drop i).take sub.length = sub

/-- Downward scan used to model Python `str.rfind`: greatest `i` with
`lo ≤ i ≤ n` and an occurrence of `sub` at `i`, else `none`. -/
def rfindDown (text sub : List Char) (lo : Nat) : Nat → Option Nat
  | 0 => if lo ≤ 0 ∧ occursAt text sub 0 then some 0 else none
  | n + 1 =>
    if lo ≤ n + 1 ∧ occursAt text sub (n + 1) then some (n + 1)
    else rfindDown text sub lo n

/-- Python `text.rfind(sub, lo, hi)` (for non-empty `sub`): greatest `i`
with `lo ≤ i` and `i + sub.length ≤ hi` at which `sub` occurs, else none
(Python returns `-1`; the callers below only compare against thresholds,
which the `Option` branch reproduces). -/
def rfind (text sub : List Char) (lo hi : Nat) : Option Nat :=
  if sub.length ≤ hi then rfindDown text sub lo (hi - sub.length) else none

/-- The `for punct in [".", "!", "?"]` loop of `chunk_text`: take the first
punctuation character (in that fixed order) for which
`text.rfind(punct, lo, hi)` returns an index `> 0`. -/
def firstPunct (text : List Char) (lo hi : Nat) : List Char → Option Nat
  | [] => none
  | p :: ps =>
    match rfind text [p] lo hi with
    | some i => if 0 < i then some i else firstPunct text lo hi ps
    | none => firstPunct text lo hi ps

/-- Boundary adjustment of one `chunk_text` iteration (the body of
`if end < text_len:`): prefer the last paragraph break strictly past the
window's half-point, otherwise a sentence-ending punctuation found by
`firstPunct` over `[half, end0)`, otherwise the raw boundary
`start + chunk_size`. -/
def adjustEnd (text : List Char) (cs start : Nat) : Nat :=
  let end0 := start + cs
  let half := start + cs / 2
  match rfind text ['\n', '\n'] start end0 with
  | some pb =>
    if half < pb then pb
    else
      match firstPunct text half end0 ['.', '!', '?'] with
      | some i => i + 1
      | none => end0
  | none =>
    match firstPunct text half end0 ['.', '!', '?'] with
    | some i => i + 1
    | none => end0

/-- The chunk boundary actually used: adjusted only when the provisional
boundary `start + chunk_size` falls before end-of-text. -/
def chunkEnd (text : List Char) (cs start : Nat) : Nat :=
  if start + cs < text.length then adjustEnd text cs start else start + cs

/-- `start = end - overlap if end < text_len else text_len`. -/
def nextStart (text : List Char) (ov e : Nat) : Nat :=
  if e < text.length then e - ov else text.length

/-- One iteration of the `while start < text_len` loop: the (possibly
dropped) stripped chunk and the next window start. -/
def chunkStep (text : List Char) (cs ov start : Nat) : Option (List Char) × Nat :=
  let e := chunkEnd text cs start
  let c := pyStrip (pySlice text start e)
  ((if c.isEmpty then none else some c), nextStart text ov e)

/-- The `while` loop, fuelled (the Python loop can fail to terminate for
pathological `overlap`/`chunk_size` choices; on the runs the claims range
over the fuel `text.length + 1` is never exhausted, because each iteration
strictly advances `start`). -/
def chunkLoop (text : List Char) (cs ov : Nat) : Nat → Nat → List (List Char) → List (List Char)
  | 0, _, acc => acc.reverse
  | fuel + 1, start, acc =>
    if start < text.length then
      let (c, start2) := chunkStep text cs ov start
      chunkLoop text cs ov fuel start2 (match c with | some ch => ch :: acc | none => acc)
    else acc.reverse

/-- `chunk_text(text, chunk_size=1000, overlap=200)`. -/
def chunk_text (text : List Char) (cs ov : Nat) : List (List Char) :=
  if text.isEmpty then [] else chunkLoop text cs ov (text.length + 1) 0 []

/-- Ghost companion of `chunkLoop`: the raw (pre-`strip`) slices the loop
cuts, in order. -/
def rawLoop (text : List Char) (cs ov : Nat) : Nat → Nat → List (List Char)
  | 0, _ => []
  | fuel + 1, start =>
    if start < text.length then
      pySlice text start (chunkEnd text cs start) ::
        rawLoop text cs ov fuel (nextStart text ov (chunkEnd text cs start))
    else []

/-- The raw slices underlying `chunk_text` with the default parameters. -/
def rawChunks (text : List Char) : List (List Char) :=
  rawLoop text 1000 200 (text.length + 1) 0

/-- Concatenation that removes the overlap duplication between consecutive
chunks: every chunk after the first contributes all but its first `ov`
characters. -/
def joinOverlap (ov : Nat) : List (List Char) → List Char
  | [] => []
  | c :: rest => c ++ (rest.map (List.drop ov)).flatten

/-- A text on which `chunk_text` with `chunk_size = 10`, `overlap = 6`
(a choice with `overlap ≥ chunk_size / 2`) makes no progress: the
sentence break lands exactly `overlap` characters past the window start. -/
def badParamsText : List Char := "aaaaa.aaaaaaaaaa".toList

/-- Boundary policy as claim C3 words it: the nearest prior paragraph
break strictly past the half-point, otherwise the nearest prior
sentence-ending punctuation (among all three of `.`, `!`, `?` at once)
strictly past the half-point, otherwise the raw boundary. -/
def boundarySpec (text : List Char) (cs start : Nat) : Nat :=
  let end0 := start + cs
  let half := start + cs / 2
  let bp := Nat.findGreatest
    (fun i => occursAt text ['\n', '\n'] i ∧ start ≤ i ∧ i + 2 ≤ end0 ∧ half < i) end0
  if 0 < bp then bp
  else
    let sp := Nat.findGreatest
      (fun i => (occursAt text ['.'] i ∨ occursAt text ['!'] i ∨ occursAt text ['?'] i) ∧
        half < i ∧ i + 1 ≤ end0) end0
    if 0 < sp then sp + 1 else end0

/-- Boundary policy as the code actually behaves (amended claim C3): the
punctuation marks are tried in the fixed priority order `.`, `!`, `?`, and
the boundary is one past the greatest in-window occurrence (at positive
index, at or past the half-point) of the first mark that has one. -/
def boundaryAmended (text : List Char) (cs start : Nat) : Nat :=
  let end0 := start + cs
  let half := start + cs / 2
  let bp := Nat.findGreatest
    (fun i => occursAt text ['\n', '\n'] i ∧ start ≤ i ∧ i + 2 ≤ end0 ∧ half < i) end0
  if 0 < bp then bp
  else
    let d := Nat.findGreatest
      (fun i => occursAt text ['.'] i ∧ half ≤ i ∧ i + 1 ≤ end0 ∧ 0 < i) end0
    if 0 < d then d + 1
    else
      let b := Nat.findGreatest
        (fun i => occursAt text ['!'] i ∧ half ≤ i ∧ i + 1 ≤ end0 ∧ 0 < i) end0
      if 0 < b then b + 1
      else
        let q := Nat.findGreatest
          (fun i => occursAt text ['?'] i ∧ half ≤ i ∧ i + 1 ≤ end0 ∧ 0 < i) end0
        if 0 < q then q + 1 else end0

/-- `course_id.replace('-', '_')` applied character-wise. -/
def replChar (c : Char) : Char := if c = '-' then '_' else c

/-- `get_collection_name` (vector_store.py, lines 40-43):
`f"course_{course_id.replace('-', '_')[:50]}"`. -/
def get_collection_name (course_id : List Char) : List Char :=
  "course_".toList ++ (course_id.map replChar).take 50

/-- A metadata dict, modelled as an association list. -/
abbrev Metadata := List (String × String)

/-- Observable side effects of `add_documents`: an embedder invocation
and a write to the backing collection. -/
inductive VSEvent where
  | embedCall (documents : List String)
  | collectionWrite (documents : List String) (ids : List String)
  deriving DecidableEq, Repr

/-- ChromaDB's `collection.add` (external collaborator, modelled from its
documented contract): the documents/metadatas/ids lists must have equal
lengths; a mismatch raises before anything is written. -/
def collection_add (documents : List String) (metadatas : List Metadata)
    (ids : List String) : Except String Unit :=
  if documents.length = ids.length ∧ documents.length = metadatas.length then
    Except.ok ()
  else Except.error "Chroma add: mismatched list lengths"

/-- `add_documents` (vector_store.py, lines 57-95): early-returns on empty
input, otherwise generates embeddings for all documents FIRST and only then
calls `collection.add` (which is where any length validation happens).
The function result is paired with the trace of observable side effects. -/
def add_documents (course_id : String) (documents : List String)
    (metadatas : List Metadata) (ids : List String) :
    Except String (List String) × List VSEvent :=
  if documents.isEmpty then (Except.ok [], [])
  else
    match collection_add documents metadatas ids with
    | Except.ok _ =>
      (Except.ok ids, [VSEvent.embedCall documents, VSEvent.collectionWrite documents ids])
    | Except.error e => (Except.error e, [VSEvent.embedCall documents])

/-- A parsed JSON object, modelled as an association list of fields. An
empty list models the empty object, which is falsy in Python. -/
abbrev Json := List (String × String)

/-- The instruction `generate_json` appends to the system prompt. -/
def jsonInstruction : String :=
  "\n\nYou must respond with valid JSON only. No markdown, no explanations, just the JSON object."

/-- Python `sub in s`. -/
def pyContains (s sub : String) : Bool := 2 ≤ (s.splitOn sub).length

/-- The markdown-fence cleanup in `generate_json` (llm.py, lines 113-117):
`content.split("```json")[1].split("```")[0]` when a JSON-tagged fence is
present, else the analogous untagged split, else the content unchanged. -/
def stripFences (content : String) : String :=
  if pyContains content "```json" then
    (((content.splitOn "```json").getD 1 "").splitOn "```").getD 0 ""
  else if pyContains content "```" then
    (((content.splitOn "```").getD 1 "").splitOn "```").getD 0 ""
  else content

/-- Python `s.strip()` on a Lean `String`. -/
def pyStripStr (s : String) : String := String.mk (pyStrip s.toList)

/-- Outcome of one raw model invocation (external collaborator). -/
inductive AttemptOutcome where
  | modelError (msg : String)
  | modelOk (content : String)

/-- One attempt of the `generate_json` body: a model error propagates; on
success the fences are stripped, the content is stripped of whitespace and
handed to the JSON parser (an external collaborator, passed as an oracle),
whose failure also propagates. Both failure kinds surface as the same
`Except.error`, which tenacity treats as retryable. -/
def attemptOnce (parse : String → Except String Json) :
    AttemptOutcome → Except String Json
  | AttemptOutcome.modelError e => Except.error ("LLM error: " ++ e)
  | AttemptOutcome.modelOk content => parse (pyStripStr (stripFences content))

/-- tenacity `wait_exponential(multiplier=1, min=2, max=10)` evaluated
after completed attempt number `n`: `multiplier * 2 ** n` clamped into
`[min, max]`. -/
def waitExponential (minW maxW n : Nat) : Nat := max minW (min (2 ^ n) maxW)

/-- The observable outcome of a retried call: final result, number of
attempts made, and the backoff waits slept between attempts. -/
structure RetryTrace where
  result : Except String Json
  attemptsMade : Nat
  waits : List Nat
  deriving Repr

/-- tenacity `retry(stop=stop_after_attempt(maxA), wait=...)`: run attempt
`made + 1`; on success stop; on failure stop with a terminal `RetryError`
once the attempt budget is exhausted, otherwise sleep the exponential
backoff and retry. No wait ever precedes the first attempt. -/
def retryGo (f : Nat → Except String Json) : Nat → Nat → List Nat → RetryTrace
  | 0, made, ws => ⟨Except.error "RetryError", made, ws⟩
  | budget + 1, made, ws =>
    match f (made + 1) with
    | Except.ok j => ⟨Except.ok j, made + 1, ws⟩
    | Except.error e =>
      match budget with
      | 0 => ⟨Except.error ("RetryError: " ++ e), made + 1, ws⟩
      | b + 1 => retryGo f (b + 1) (made + 1) (ws ++ [waitExponential 2 10 (made + 1)])

/-- `generate_json` (llm.py, lines 76-122): appends the JSON-only
instruction to the (possibly absent) system prompt, then runs the fenced
parse-attempt under the retry decorator with 3 attempts and exponential
backoff in `[2, 10]`. The model is an oracle giving each attempt's raw
outcome. Returns the retry trace together with the full system prompt. -/
def generate_json (parse : String → Except String Json)
    (model : Nat → AttemptOutcome) (system_prompt : Option String) :
    RetryTrace × String :=
  (retryGo (fun k => attemptOnce parse (model k)) 3 0 [],
    (system_prompt.getD "") ++ jsonInstruction)

/-- One formatted search result as produced by `search_documents`
(vector_store.py, lines 129-140). -/
structure SRes where
  id : String
  document : Option String
  metadata : Metadata
  distance : Option Int
  deriving DecidableEq, Repr

/-- The LangGraph state `ContentGenerationState` (graph.py, lines 33-53). -/
structure GState where
  lecture_id : String
  course_id : String
  transcript : String
  lecture_title : String
  content_types : List String
  context : String
  context_documents : List SRes
  notes : Option Json
  assignment : Option Json
  flashcards : Option Json
  error : Option String
  completed_types : List String
  deriving DecidableEq, Repr

def sentinelContext : String := "No additional context available."

def contextSeparator : String := "\n\n---\n\n"

/-- `retrieve_context_node` (graph.py, lines 56-94). The vector search is
an external call passed as an oracle (`Except.error` models it raising).
The node is a total function: it never propagates the search failure. The
query built from `transcript[:500]`/`lecture_title` only feeds that
external call, so it does not appear in the state transition. -/
def retrieve_context_node (search : Except String (List SRes)) (s : GState) : GState :=
  match search with
  | Except.ok results =>
    let parts := (results.filterMap (fun r => r.document)).filter (fun d => d ≠ "")
    { s with
      context :=
        if parts.isEmpty then sentinelContext
        else String.intercalate contextSeparator parts,
      context_documents := results }
  | Except.error _ =>
    { s with context := sentinelContext, context_documents := [] }

/-- `generate_notes_node` (graph.py, lines 97-131): skip when not
requested; on success store the payload and append the type name; on
failure only set the error field. -/
def generate_notes_node (res : Except String Json) (s : GState) : GState :=
  if "notes" ∉ s.content_types then s
  else
    match res with
    | Except.ok j =>
      { s with notes := some j, completed_types := s.completed_types ++ ["notes"] }
    | Except.error e => { s with error := some ("Notes generation failed: " ++ e) }

/-- `generate_assignment_node` (graph.py, lines 134-168). -/
def generate_assignment_node (res : Except String Json) (s : GState) : GState :=
  if "assignment" ∉ s.content_types then s
  else
    match res with
    | Except.ok j =>
      { s with assignment := some j,
               completed_types := s.completed_types ++ ["assignment"] }
    | Except.error e => { s with error := some ("Assignment generation failed: " ++ e) }

/-- `generate_flashcards_node` (graph.py, lines 171-205). -/
def generate_flashcards_node (res : Except String Json) (s : GState) : GState :=
  if "flashcards" ∉ s.content_types then s
  else
    match res with
    | Except.ok j =>
      { s with flashcards := some j,
               completed_types := s.completed_types ++ ["flashcards"] }
    | Except.error e => { s with error := some ("Flashcards generation failed: " ++ e) }

inductive ContentType where
  | notes
  | assignment
  | flashcards
  deriving DecidableEq, Repr

/-- Observable database effects of the persistence stage. -/
inductive DbEvent where
  | insertRecord (t : ContentType) (lecture_id course_id : String)
      (content : Json) (docsUsed : Nat)
  | lectureCompleted (lecture_id : String)
  deriving DecidableEq, Repr

/-- Outcomes of the external MongoDB calls made by `save_content_node`. -/
structure SaveOracle where
  insertNotes : Except String Unit
  insertAssignment : Except String Unit
  insertFlashcards : Except String Unit
  lectureFound : Bool
  lectureSave : Except String Unit

/-- Python truthiness of an `Optional[Dict]` slot: `None` and the empty
object are falsy (`if state.get("notes"):`). -/
def truthy : Option Json → Option Json
  | some j => if j.isEmpty then none else some j
  | none => none

/-- One `if state.get(...): await doc.insert()` block of
`save_content_node`: skip a falsy slot; append the record on a successful
insert; carry the events written so far out through a raised error. -/
def saveSlot (s : GState) (t : ContentType) (slot : Option Json)
    (res : Except String Unit) (evs : List DbEvent) :
    Except (String × List DbEvent) (List DbEvent) :=
  match truthy slot with
  | none => Except.ok evs
  | some j =>
    match res with
    | Except.ok _ =>
      Except.ok (evs ++
        [DbEvent.insertRecord t s.lecture_id s.course_id j s.context_documents.length])
    | Except.error e => Except.error (e, evs)

def saveFailMsg (e : String) : String := "Failed to save content: " ++ e

/-- `save_content_node` (graph.py, lines 208-281): inside one `try`, write
the notes, assignment and flashcards records in that order (skipping falsy
slots), then mark the lecture completed when it is found; any raised
error is recorded on the state's error field, keeping the records already
written. On success the state is returned unchanged. -/
def save_content_node (o : SaveOracle) (s : GState) : GState × List DbEvent :=
  match saveSlot s ContentType.notes s.notes o.insertNotes [] with
  | Except.error (e, evs) => ({ s with error := some (saveFailMsg e) }, evs)
  | Except.ok e1 =>
    match saveSlot s ContentType.assignment s.assignment o.insertAssignment e1 with
    | Except.error (e, evs) => ({ s with error := some (saveFailMsg e) }, evs)
    | Except.ok e2 =>
      match saveSlot s ContentType.flashcards s.flashcards o.insertFlashcards e2 with
      | Except.error (e, evs) => ({ s with error := some (saveFailMsg e) }, evs)
      | Except.ok e3 =>
        if o.lectureFound then
          match o.lectureSave with
          | Except.ok _ => (s, e3 ++ [DbEvent.lectureCompleted s.lecture_id])
          | Except.error e => ({ s with error := some (saveFailMsg e) }, e3)
        else (s, e3)

/-- All external outcomes of one pipeline run. -/
structure StageOracles where
  search : Except String (List SRes)
  notesGen : Except String Json
  assignmentGen : Except String Json
  flashcardsGen : Except String Json
  save : SaveOracle

/-- The compiled straight-line workflow (graph.py, lines 284-309):
retrieve, notes, assignment, flashcards, save. -/
def runPipeline (o : StageOracles) (s0 : GState) : GState × List DbEvent :=
  save_content_node o.save
    (generate_flashcards_node o.flashcardsGen
      (generate_assignment_node o.assignmentGen
        (generate_notes_node o.notesGen
          (retrieve_context_node o.search s0))))

/-- The initial state built by `run_content_generation`
(graph.py, lines 336-352). -/
def initialState (lecture_id course_id transcript lecture_title : String)
    (content_types : List String) : GState :=
  { lecture_id := lecture_id, course_id := course_id, transcript := transcript,
    lecture_title := lecture_title, content_types := content_types,
    context := "", context_documents := [], notes := none, assignment := none,
    flashcards := none, error := none, completed_types := [] }

/-- `run_content_generation` (graph.py, lines 316-361): defaulted content
types and the workflow invocation. -/
def run_content_generation (o : StageOracles)
    (lecture_id course_id transcript lecture_title : String)
    (content_types : Option (List String)) : GState × List DbEvent :=
  runPipeline o
    (initialState lecture_id course_id transcript lecture_title
      (content_types.getD ["notes", "assignment", "flashcards"]))

/-- The records the happy path writes: one per non-empty slot, in the
fixed order notes, assignment, flashcards. -/
def slotEvents (s : GState) : List DbEvent :=
  (match truthy s.notes with
    | some j => [DbEvent.insertRecord ContentType.notes s.lecture_id s.course_id j
        s.context_documents.length]
    | none => []) ++
  (match truthy s.assignment with
    | some j => [DbEvent.insertRecord ContentType.assignment s.lecture_id s.course_id j
        s.context_documents.length]
    | none => []) ++
  (match truthy s.flashcards with
    | some j => [DbEvent.insertRecord ContentType.flashcards s.lecture_id s.course_id j
        s.context_documents.length]
    | none => [])

/-- A final state with non-empty notes and assignment payloads. -/
def c7State : GState :=
  { initialState "L1" "C1" "transcript" "Title" ["notes", "assignment", "flashcards"] with
    notes := some [("title", "n")], assignment := some [("title", "a")],
    completed_types := ["notes", "assignment"] }

/-- A database where inserting the notes record fails and everything else
would succeed. -/
def c7FailOracle : SaveOracle :=
  { insertNotes := Except.error "db down", insertAssignment := Except.ok (),
    insertFlashcards := Except.ok (), lectureFound := true,
    lectureSave := Except.ok () }

/-- A database where every call succeeds. -/
def c7OkOracle : SaveOracle :=
  { insertNotes := Except.ok (), insertAssignment := Except.ok (),
    insertFlashcards := Except.ok (), lectureFound := true,
    lectureSave := Except.ok () }

def c5State : GState :=
  initialState "L2" "C2" "transcript" "Title" ["notes"]

def c5Res : SRes := ⟨"id1", some "doc one", [], some 0⟩

def c1Oracle : StageOracles :=
  { search := Except.error "no index",
    notesGen := Except.ok [("title", "Lecture notes")],
    assignmentGen := Except.error "rate limited three times",
    flashcardsGen := Except.ok [("title", "Cards")],
    save := c7OkOracle }

/-! ## Theorems -/

theorem rfindDown_eq_some_iff (text sub : List Char) (lo : Nat) :
    ∀ n i, rfindDown text sub lo n = some i ↔
      lo ≤ i ∧ i ≤ n ∧ occursAt text sub i ∧
        ∀ j, i < j → j ≤ n → ¬ occursAt text sub j := by
  intro n
  induction n with
  | zero =>
    intro i
    simp only [rfindDown]
    split
    · rename_i hc
      constructor
      · rintro ⟨rfl⟩
        exact ⟨hc.1, le_refl 0, hc.2, fun j hj hj0 => by omega⟩
      · rintro ⟨_, hi0, _, _⟩
        exact congrArg some (Nat.le_zero.mp hi0).symm
    · rename_i hc
      constructor
      · intro h; exact absurd h (by simp)
      · rintro ⟨h1, hi0, h3, _⟩
        have hz : i = 0 := Nat.le_zero.mp hi0
        subst hz
        exact absurd ⟨h1, h3⟩ hc
  | succ n ih =>
    intro i
    simp only [rfindDown]
    split
    · rename_i hc
      constructor
      · rintro ⟨rfl⟩
        exact ⟨hc.1, le_refl _, hc.2, fun j hj hj0 => by omega⟩
      · rintro ⟨_, hi, _, hmax⟩
        rcases Nat.lt_or_ge i (n + 1) with hlt | hge
        · exact absurd hc.2 (hmax (n + 1) hlt (le_refl _))
        · exact congrArg some (le_antisymm hi hge).symm
    · rename_i hc
      rw [ih i]
      constructor
      · rintro ⟨h1, hi, h3, hmax⟩
        refine ⟨h1, Nat.le_succ_of_le hi, h3, fun j hj hj1 => ?_⟩
        rcases Nat.lt_or_ge j (n + 1) with hlt | hge
        · exact hmax j hj (Nat.lt_succ_iff.mp hlt)
        · have hj2 : j = n + 1 := le_antisymm hj1 hge
          subst hj2
          intro hocc
          exact hc ⟨by omega, hocc⟩
      · rintro ⟨h1, hi, h3, hmax⟩
        have hin : i ≤ n := by
          rcases Nat.lt_or_ge i (n + 1) with hlt | hge
          · exact Nat.lt_succ_iff.mp hlt
          · have hi2 : i = n + 1 := le_antisymm hi hge
            subst hi2
            exact absurd ⟨h1, h3⟩ hc
        exact ⟨h1, hin, h3, fun j hj hjn => hmax j hj (Nat.le_succ_of_le hjn)⟩

theorem rfindDown_eq_none_iff (text sub : List Char) (lo : Nat) :
    ∀ n, rfindDown text sub lo n = none ↔
      ∀ j, lo ≤ j → j ≤ n → ¬ occursAt text sub j := by
  intro n
  induction n with
  | zero =>
    simp only [rfindDown]
    split
    · rename_i hc
      constructor
      · intro h; exact absurd h (by simp)
      · intro h; exact absurd hc.2 (h 0 hc.1 (le_refl 0))
    · rename_i hc
      refine ⟨fun _ j hj1 hj2 hocc => ?_, fun _ => rfl⟩
      have hz : j = 0 := Nat.le_zero.mp hj2
      subst hz
      exact hc ⟨hj1, hocc⟩
  | succ n ih =>
    simp only [rfindDown]
    split
    · rename_i hc
      constructor
      · intro h; exact absurd h (by simp)
      · intro h; exact absurd hc.2 (h (n + 1) hc.1 (le_refl _))
    · rename_i hc
      rw [ih]
      constructor
      · intro h j hj1 hj2 hocc
        rcases Nat.lt_or_ge j (n + 1) with hlt | hge
        · exact h j hj1 (Nat.lt_succ_iff.mp hlt) hocc
        · have hj3 : j = n + 1 := le_antisymm hj2 hge
          subst hj3
          exact hc ⟨hj1, hocc⟩
      · intro h j hj1 hj2 hocc
        exact h j hj1 (Nat.le_succ_of_le hj2) hocc

theorem rfind_eq_some_iff (text sub : List Char) (lo hi i : Nat) :
    rfind text sub lo hi = some i ↔
      lo ≤ i ∧ i + sub.length ≤ hi ∧ occursAt text sub i ∧
        ∀ j, i < j → j + sub.length ≤ hi → ¬ occursAt text sub j := by
  unfold rfind
  split
  · rename_i hlen
    rw [rfindDown_eq_some_iff]
    constructor
    · rintro ⟨h1, h2, h3, hmax⟩
      exact ⟨h1, by omega, h3, fun j hj hjh => hmax j hj (by omega)⟩
    · rintro ⟨h1, h2, h3, hmax⟩
      exact ⟨h1, by omega, h3, fun j hj hjh => hmax j hj (by omega)⟩
  · rename_i hlen
    constructor
    · intro h; exact absurd h (by simp)
    · rintro ⟨_, h2, _, _⟩; omega

theorem rfind_eq_none_iff (text sub : List Char) (lo hi : Nat) :
    rfind text sub lo hi = none ↔
      ∀ j, lo ≤ j → j + sub.length ≤ hi → ¬ occursAt text sub j := by
  unfold rfind
  split
  · rename_i hlen
    rw [rfindDown_eq_none_iff]
    constructor
    · intro h j hj1 hj2
      exact h j hj1 (by omega)
    · intro h j hj1 hj2
      exact h j hj1 (by omega)
  · rename_i hlen
    refine ⟨fun _ j hj1 hj2 => by omega, fun _ => rfl⟩

theorem firstPunct_some_bounds (text : List Char) (lo hi : Nat) :
    ∀ ps i, firstPunct text lo hi ps = some i → lo ≤ i ∧ i + 1 ≤ hi ∧ 0 < i := by
  intro ps
  induction ps with
  | nil => intro i h; exact absurd h (by simp [firstPunct])
  | cons p ps ih =>
    intro i h
    simp only [firstPunct] at h
    rcases hr : rfind text [p] lo hi with _ | j
    · rw [hr] at h; exact ih i h
    · rw [hr] at h
      rw [rfind_eq_some_iff] at hr
      by_cases hj : 0 < j
      · simp only [if_pos hj] at h
        cases h
        exact ⟨hr.1, by simpa using hr.2.1, hj⟩
      · simp only [if_neg hj] at h
        exact ih i h

theorem adjustEnd_le (text : List Char) (cs start : Nat) :
    adjustEnd text cs start ≤ start + cs := by
  rcases hr : rfind text ['\n', '\n'] start (start + cs) with _ | pb
  · rcases hp : firstPunct text (start + cs / 2) (start + cs) ['.', '!', '?'] with _ | i
    · simp [adjustEnd, hr, hp]
    · have := firstPunct_some_bounds text _ _ _ _ hp
      simp only [adjustEnd, hr, hp]
      omega
  · have hb : pb + 2 ≤ start + cs := by
      have := (rfind_eq_some_iff text ['\n', '\n'] start (start + cs) pb).mp hr
      simpa using this.2.1
    rcases hp : firstPunct text (start + cs / 2) (start + cs) ['.', '!', '?'] with _ | i
    · simp only [adjustEnd, hr, hp]
      split
      · omega
      · omega
    · have := firstPunct_some_bounds text _ _ _ _ hp
      simp only [adjustEnd, hr, hp]
      split
      · omega
      · omega

theorem half_lt_adjustEnd (text : List Char) (cs start : Nat) (hcs : 0 < cs) :
    start + cs / 2 < adjustEnd text cs start := by
  have hh : cs / 2 < cs := Nat.div_lt_self hcs (by omega)
  rcases hr : rfind text ['\n', '\n'] start (start + cs) with _ | pb
  · rcases hp : firstPunct text (start + cs / 2) (start + cs) ['.', '!', '?'] with _ | i
    · simp only [adjustEnd, hr, hp]; omega
    · have := firstPunct_some_bounds text _ _ _ _ hp
      simp only [adjustEnd, hr, hp]
      omega
  · rcases hp : firstPunct text (start + cs / 2) (start + cs) ['.', '!', '?'] with _ | i
    · simp only [adjustEnd, hr, hp]
      split
      · omega
      · omega
    · have := firstPunct_some_bounds text _ _ _ _ hp
      simp only [adjustEnd, hr, hp]
      split
      · omega
      · omega

theorem half_lt_chunkEnd (text : List Char) (cs start : Nat) (hcs : 0 < cs) :
    start + cs / 2 < chunkEnd text cs start := by
  have hh : cs / 2 < cs := Nat.div_lt_self hcs (by omega)
  unfold chunkEnd
  split
  · exact half_lt_adjustEnd text cs start hcs
  · omega

theorem chunkEnd_le (text : List Char) (cs start : Nat) :
    chunkEnd text cs start ≤ start + cs := by
  unfold chunkEnd
  split
  · exact adjustEnd_le text cs start
  · omega

/-- Each loop iteration strictly advances the window start, provided the
overlap does not reach the half-window (`ov ≤ cs / 2`, `0 < cs`). -/
theorem chunkStep_advances (text : List Char) (cs ov start : Nat)
    (hcs : 0 < cs) (hov : ov ≤ cs / 2) (hstart : start < text.length) :
    start < (chunkStep text cs ov start).2 := by
  have h1 := half_lt_chunkEnd text cs start hcs
  have h2 := chunkEnd_le text cs start
  simp only [chunkStep, nextStart]
  split
  · omega
  · omega

theorem chunkLoop_eq_rawLoop (text : List Char) (cs ov : Nat) :
    ∀ fuel start acc, chunkLoop text cs ov fuel start acc =
      acc.reverse ++
        ((rawLoop text cs ov fuel start).map pyStrip).filter (fun c => !c.isEmpty) := by
  intro fuel
  induction fuel with
  | zero => intro start acc; simp [chunkLoop, rawLoop]
  | succ fuel ih =>
    intro start acc
    simp only [chunkLoop, rawLoop, chunkStep]
    split
    · rw [ih]
      rcases he : (pyStrip (pySlice text start (chunkEnd text cs start))).isEmpty with _ | _
      · simp only [List.map_cons, List.filter_cons, he, Bool.not_false]
        simp
      · have : pyStrip (pySlice text start (chunkEnd text cs start)) = [] :=
          List.isEmpty_iff.mp he
        simp only [List.map_cons, List.filter_cons, he, Bool.not_true]
        simp
    · simp

theorem rawLoop_at_end (text : List Char) (cs ov : Nat) :
    ∀ fuel, rawLoop text cs ov fuel text.length = [] := by
  intro fuel
  cases fuel with
  | zero => rfl
  | succ f => simp [rawLoop]

theorem pySlice_length (text : List Char) (s e : Nat) :
    (pySlice text s e).length = min (e - s) (text.length - s) := by
  simp [pySlice]

/-- Dropping the overlap from the joined tail equals mapping the drop over
each tail element, as long as the first element is at least `ov` long. -/
theorem flatten_map_drop (ov : Nat) (h : List Char) (t : List (List Char))
    (hh : ov ≤ h.length) :
    ((h :: t).map (List.drop ov)).flatten = List.drop ov (joinOverlap ov (h :: t)) := by
  simp only [joinOverlap, List.map_cons, List.flatten_cons]
  rw [List.drop_append_of_le_length hh]

/-- Concatenating the raw slices, with the first `ov` characters of every
slice after the first removed, reconstructs the tail of the text from the
window start — for any parameters with `0 < cs` and `ov ≤ cs / 2`. -/
theorem rawLoop_reconstruct (text : List Char) (cs ov : Nat)
    (hcs : 0 < cs) (hov : ov ≤ cs / 2) :
    ∀ fuel start, start < text.length → text.length ≤ start + fuel →
      joinOverlap ov (rawLoop text cs ov fuel start) = text.drop start := by
  intro fuel
  induction fuel with
  | zero => intro start h1 h2; omega
  | succ fuel ih =>
    intro start h1 h2
    have hhalf := half_lt_chunkEnd text cs start hcs
    have hle := chunkEnd_le text cs start
    simp only [rawLoop, if_pos h1]
    set e := chunkEnd text cs start with he
    by_cases hend : e < text.length
    · -- non-final chunk: the window advances to `e - ov`
      have hns : nextStart text ov e = e - ov := by simp [nextStart, hend]
      rw [hns]
      have hadv : start + ov < e := by omega
      have hs2 : e - ov < text.length := by omega
      have hfuel : text.length ≤ (e - ov) + fuel := by omega
      have hrec := ih (e - ov) hs2 hfuel
      -- the recursive raw list is non-empty; expose its head
      cases fuel with
      | zero => omega
      | succ f =>
        have hcons : rawLoop text cs ov (f + 1) (e - ov) =
            pySlice text (e - ov) (chunkEnd text cs (e - ov)) ::
              rawLoop text cs ov f (nextStart text ov (chunkEnd text cs (e - ov))) := by
          simp [rawLoop, hs2]
        have hheadlen : ov ≤ (pySlice text (e - ov) (chunkEnd text cs (e - ov))).length := by
          have h3 := half_lt_chunkEnd text cs (e - ov) hcs
          rw [pySlice_length]
          omega
        simp only [joinOverlap, hcons]
        rw [flatten_map_drop ov _ _ hheadlen]
        rw [← hcons, hrec]
        rw [List.drop_drop]
        have hde : e - ov + ov = e := by omega
        rw [hde]
        have hsplit : text.drop start =
            (text.drop start).take (e - start) ++ (text.drop start).drop (e - start) := by
          rw [List.take_append_drop]
        rw [List.drop_drop] at hsplit
        have hes : start + (e - start) = e := by omega
        rw [hes] at hsplit
        simp only [pySlice]
        exact hsplit.symm
    · -- final chunk: runs to end-of-text
      have hns : nextStart text ov e = text.length := by simp [nextStart, hend]
      rw [hns, rawLoop_at_end]
      simp only [joinOverlap, List.map_nil, List.flatten_nil, List.append_nil]
      simp only [pySlice]
      rw [List.take_of_length_le]
      simp only [List.length_drop]
      omega

theorem pyStrip_has_nonspace (l : List Char) (h : pyStrip l ≠ []) :
    ∃ c ∈ pyStrip l, pyIsSpace c = false := by
  unfold pyStrip at *
  set X := (l.dropWhile pyIsSpace).reverse with hX
  have hne : X.dropWhile pyIsSpace ≠ [] := by
    intro hwrong
    rw [hwrong] at h
    exact h rfl
  refine ⟨(X.dropWhile pyIsSpace).head hne, ?_, ?_⟩
  · rw [List.mem_reverse]
    exact List.head_mem hne
  · have := List.head_dropWhile_not pyIsSpace X hne
    simpa using this

theorem chunk_text_mem (text : List Char) (cs ov : Nat) (c : List Char)
    (hmem : c ∈ chunk_text text cs ov) :
    c ≠ [] ∧ ∃ ch ∈ c, pyIsSpace ch = false := by
  unfold chunk_text at hmem
  split at hmem
  · exact absurd hmem (by simp)
  · rw [chunkLoop_eq_rawLoop] at hmem
    simp only [List.reverse_nil, List.nil_append, List.mem_filter,
      List.mem_map] at hmem
    obtain ⟨⟨r, _, hr⟩, hne⟩ := hmem
    have hcne : c ≠ [] := by
      intro hwrong
      rw [hwrong] at hne
      simp at hne
    refine ⟨hcne, ?_⟩
    rw [← hr]
    exact pyStrip_has_nonspace r (hr ▸ hcne)

/-- Claim C9: `chunk_text` of the empty string returns an empty list, and
for every input text no returned chunk is empty or whitespace-only. -/
theorem chunkText_empty_and_no_blank_chunks :
    (∀ cs ov, chunk_text [] cs ov = []) ∧
    ∀ (text : List Char) (cs ov : Nat) (c : List Char),
      c ∈ chunk_text text cs ov → c ≠ [] ∧ ∃ ch ∈ c, pyIsSpace ch = false := by
  constructor
  · intro cs ov; rfl
  · exact fun text cs ov c h => chunk_text_mem text cs ov c h

theorem chunkText_empty_and_no_blank_chunks_witness :
    ['h', 'i'] ∈ chunk_text ['h', 'i'] 1000 200 ∧
      (['h', 'i'] ≠ ([] : List Char) ∧ ∃ ch ∈ ['h', 'i'], pyIsSpace ch = false) :=
  ⟨by decide, chunkText_empty_and_no_blank_chunks.2 ['h', 'i'] 1000 200 ['h', 'i'] (by decide)⟩

/-- Claim C10: with the default parameters every chosen boundary lies
strictly past the window's half-point (which exceeds the overlap), so each
loop iteration strictly advances the window start; with
`overlap ≥ chunk_size / 2` that guarantee is lost — a concrete such choice
makes an iteration not advance at all (the Python loop then never
terminates). -/
theorem chunkLoop_progress_default_and_stall_when_overlap_large :
    (∀ (text : List Char) (start : Nat), start + 500 < chunkEnd text 1000 start) ∧
    (∀ (text : List Char) (start : Nat), start < text.length →
      start < (chunkStep text 1000 200 start).2) ∧
    ((chunkStep badParamsText 10 6 0).2 = 0 ∧ 0 < badParamsText.length ∧ 10 / 2 ≤ 6) := by
  refine ⟨fun text start => ?_, fun text start h => ?_, by decide⟩
  · have := half_lt_chunkEnd text 1000 start (by norm_num)
    simpa using this
  · exact chunkStep_advances text 1000 200 start (by norm_num) (by norm_num) h

theorem chunkLoop_progress_witness :
    0 < (chunkStep ['h', 'i'] 1000 200 0).2 :=
  chunkLoop_progress_default_and_stall_when_overlap_large.2.1 ['h', 'i'] 0 (by decide)

/-- Claim C4 counterexample: for the non-empty text `" a"` the single
returned chunk is `"a"` (the leading space was stripped), so concatenating
the chunks with overlap duplication removed does not reconstruct the
original text. -/
theorem chunkText_reconstruction_counterexample :
    ([' ', 'a'] : List Char) ≠ [] ∧
      joinOverlap 200 (chunk_text [' ', 'a'] 1000 200) ≠ [' ', 'a'] := by
  decide

/-- Claim C4 (amended): with the default parameters the raw window slices
cut by the loop do reconstruct the text exactly when concatenated with the
overlap duplication removed; the returned chunks are precisely those raw
slices with surrounding whitespace stripped and empty results dropped (so
reconstruction of the exact text can fail only by whitespace trimmed at
chunk edges). -/
theorem chunkText_reconstruction_amended (text : List Char) (h : text ≠ []) :
    joinOverlap 200 (rawChunks text) = text ∧
    chunk_text text 1000 200 =
      ((rawChunks text).map pyStrip).filter (fun c => !c.isEmpty) := by
  constructor
  · have h0 : 0 < text.length := List.length_pos.mpr h
    have := rawLoop_reconstruct text 1000 200 (by norm_num) (by norm_num)
      (text.length + 1) 0 h0 (by omega)
    simpa [rawChunks] using this
  · unfold chunk_text
    rw [if_neg (by simpa using h)]
    rw [chunkLoop_eq_rawLoop]
    simp [rawChunks]

theorem chunkText_reconstruction_amended_witness :
    (['h', 'i'] : List Char) ≠ [] ∧
      (joinOverlap 200 (rawChunks ['h', 'i']) = ['h', 'i'] ∧
        chunk_text ['h', 'i'] 1000 200 =
          ((rawChunks ['h', 'i']).map pyStrip).filter (fun c => !c.isEmpty)) :=
  ⟨by decide, chunkText_reconstruction_amended ['h', 'i'] (by decide)⟩

theorem findGreatest_para_eq (text : List Char) (cs start : Nat) :
    Nat.findGreatest
      (fun i => occursAt text ['\n', '\n'] i ∧ start ≤ i ∧ i + 2 ≤ start + cs ∧
        start + cs / 2 < i) (start + cs) =
    (match rfind text ['\n', '\n'] start (start + cs) with
      | some pb => if start + cs / 2 < pb then pb else 0
      | none => 0) := by
  rcases hr : rfind text ['\n', '\n'] start (start + cs) with _ | pb
  · rw [rfind_eq_none_iff] at hr
    simp only []
    rw [Nat.findGreatest_eq_zero_iff]
    rintro n _ _ ⟨hocc, hn1, hn2, _⟩
    exact hr n hn1 (by simpa using hn2) hocc
  · rw [rfind_eq_some_iff] at hr
    obtain ⟨h1, h2, h3, hmax⟩ := hr
    simp only [List.length_cons, List.length_nil] at h2 hmax
    simp only []
    split
    · rename_i hhalf
      rw [Nat.findGreatest_eq_iff]
      refine ⟨by omega, fun _ => ⟨h3, h1, by omega, hhalf⟩, ?_⟩
      rintro n hn1 hn2 ⟨hocc, hq1, hq2, _⟩
      exact hmax n hn1 (by omega) hocc
    · rename_i hhalf
      rw [Nat.findGreatest_eq_zero_iff]
      rintro n hn0 hn1 ⟨hocc, hq1, hq2, hq3⟩
      rcases Nat.lt_or_ge pb n with hlt | hge
      · exact hmax n hlt (by omega) hocc
      · omega

theorem findGreatest_punct_eq (text : List Char) (p : Char) (lo hi : Nat) :
    Nat.findGreatest
      (fun i => occursAt text [p] i ∧ lo ≤ i ∧ i + 1 ≤ hi ∧ 0 < i) hi =
    (match rfind text [p] lo hi with
      | some i => if 0 < i then i else 0
      | none => 0) := by
  rcases hr : rfind text [p] lo hi with _ | i
  · rw [rfind_eq_none_iff] at hr
    simp only []
    rw [Nat.findGreatest_eq_zero_iff]
    rintro n _ _ ⟨hocc, hn1, hn2, _⟩
    exact hr n hn1 (by simpa using hn2) hocc
  · rw [rfind_eq_some_iff] at hr
    obtain ⟨h1, h2, h3, hmax⟩ := hr
    simp only [List.length_cons, List.length_nil] at h2 hmax
    simp only []
    split
    · rename_i hpos
      rw [Nat.findGreatest_eq_iff]
      refine ⟨by omega, fun _ => ⟨h3, h1, by omega, hpos⟩, ?_⟩
      rintro n hn1 hn2 ⟨hocc, hq1, hq2, _⟩
      exact hmax n hn1 (by omega) hocc
    · rename_i hpos
      rw [Nat.findGreatest_eq_zero_iff]
      rintro n hn0 hn1 ⟨hocc, hq1, hq2, hq3⟩
      rcases Nat.lt_or_ge i n with hlt | hge
      · exact hmax n hlt (by omega) hocc
      · omega

theorem punctChain_eq (text : List Char) (half end0 : Nat) :
    (let d := Nat.findGreatest
        (fun i => occursAt text ['.'] i ∧ half ≤ i ∧ i + 1 ≤ end0 ∧ 0 < i) end0
      if 0 < d then d + 1
      else
        let b := Nat.findGreatest
          (fun i => occursAt text ['!'] i ∧ half ≤ i ∧ i + 1 ≤ end0 ∧ 0 < i) end0
        if 0 < b then b + 1
        else
          let q := Nat.findGreatest
            (fun i => occursAt text ['?'] i ∧ half ≤ i ∧ i + 1 ≤ end0 ∧ 0 < i) end0
          if 0 < q then q + 1 else end0) =
    (match firstPunct text half end0 ['.', '!', '?'] with
      | some i => i + 1
      | none => end0) := by
  simp only [firstPunct, findGreatest_punct_eq]
  rcases hd : rfind text ['.'] half end0 with _ | i
  · rcases hb : rfind text ['!'] half end0 with _ | i
    · rcases hq : rfind text ['?'] half end0 with _ | i
      · simp
      · by_cases hpos : 0 < i <;> simp [hpos]
    · by_cases hpos : 0 < i
      · simp [hpos]
      · rcases hq : rfind text ['?'] half end0 with _ | j
        · simp [hpos]
        · by_cases hpos2 : 0 < j <;> simp [hpos, hpos2]
  · by_cases hpos : 0 < i
    · simp [hpos]
    · rcases hb : rfind text ['!'] half end0 with _ | j
      · rcases hq : rfind text ['?'] half end0 with _ | k
        · simp [hpos]
        · by_cases hpos2 : 0 < k <;> simp [hpos, hpos2]
      · by_cases hpos2 : 0 < j
        · simp [hpos, hpos2]
        · rcases hq : rfind text ['?'] half end0 with _ | k
          · simp [hpos, hpos2]
          · by_cases hpos3 : 0 < k <;> simp [hpos, hpos2, hpos3]

/-- Claim C3 (amended): the boundary the code picks is the nearest prior
paragraph break when one lies strictly past the half-point; otherwise the
punctuation marks are tried in the fixed order `.`, `!`, `?` and the
boundary is one past the greatest in-window occurrence (at positive index,
at or past the half-point) of the first mark having one; otherwise the raw
boundary `start + chunk_size`. -/
theorem adjustEnd_eq_boundaryAmended (text : List Char) (cs start : Nat) :
    adjustEnd text cs start = boundaryAmended text cs start := by
  unfold boundaryAmended
  simp only [findGreatest_para_eq]
  rcases hr : rfind text ['\n', '\n'] start (start + cs) with _ | pb
  · simp only [adjustEnd, hr]
    rw [punctChain_eq]
    simp
  · simp only [adjustEnd, hr]
    by_cases hhalf : start + cs / 2 < pb
    · simp only [if_pos hhalf]
      rw [if_pos (show 0 < pb by omega)]
    · simp only [if_neg hhalf]
      rw [punctChain_eq]
      simp

/-- Claim C3 counterexample: in the window `[0, 10)` of
`"abcdef.g!hjklmnop"` (half-point 5) the nearest sentence-ending
punctuation past the half-point is the `'!'` at index 8, so the claimed
policy cuts at 9 — but the code tries `'.'` first and cuts at 7, and the
first emitted chunk is `"abcdef."` rather than `"abcdef.g!"`. -/
theorem adjustEnd_counterexample :
    adjustEnd ("abcdef.g!hjklmnop".toList) 10 0 = 7 ∧
    boundarySpec ("abcdef.g!hjklmnop".toList) 10 0 = 9 ∧
    (chunk_text ("abcdef.g!hjklmnop".toList) 10 2).head? = some ("abcdef.".toList) := by
  decide

/-- Claim C2 counterexample: with 3 documents and 2 ids the call is indeed
rejected, but only after the embedder has been invoked on the documents —
the event trace already contains the embedding call. -/
theorem add_documents_embeds_before_reject :
    add_documents "c1" ["d1", "d2", "d3"] [[], [], []] ["i1", "i2"] =
      (Except.error "Chroma add: mismatched list lengths",
        [VSEvent.embedCall ["d1", "d2", "d3"]]) ∧
    ("d1" :: "d2" :: "d3" :: []).length ≠ ("i1" :: "i2" :: []).length := by
  constructor
  · rfl
  · decide

/-- Claim C2 (amended): a call with mismatched list lengths (and non-empty
documents) fails synchronously and nothing is written to the collection,
but the rejection comes from the backing collection's own validation —
after the embedder has already been invoked; `add_documents` itself checks
no lengths. -/
theorem add_documents_mismatch_amended (course_id : String)
    (documents : List String) (metadatas : List Metadata) (ids : List String)
    (hne : documents ≠ [])
    (hmm : ¬(documents.length = ids.length ∧ documents.length = metadatas.length)) :
    (add_documents course_id documents metadatas ids).1 =
      Except.error "Chroma add: mismatched list lengths" ∧
    (add_documents course_id documents metadatas ids).2 =
      [VSEvent.embedCall documents] := by
  unfold add_documents collection_add
  rw [if_neg (by simpa using hne), if_neg hmm]
  exact ⟨rfl, rfl⟩

theorem add_documents_mismatch_amended_witness :
    (["d1"] ≠ ([] : List String)) ∧
    ¬((["d1"] : List String).length = (["i1", "i2"] : List String).length ∧
        (["d1"] : List String).length = ([[]] : List Metadata).length) ∧
    (add_documents "c" ["d1"] [[]] ["i1", "i2"]).1 =
      Except.error "Chroma add: mismatched list lengths" ∧
    (add_documents "c" ["d1"] [[]] ["i1", "i2"]).2 = [VSEvent.embedCall ["d1"]] := by
  refine ⟨by decide, by decide, ?_⟩
  exact add_documents_mismatch_amended "c" ["d1"] [[]] ["i1", "i2"]
    (by decide) (by decide)

/-- Claim C8 counterexample: `"a-b"` and `"a_b"` are distinct course ids
that map to the same collection name `"course_a_b"`. -/
theorem get_collection_name_collision :
    get_collection_name ("a-b".toList) = get_collection_name ("a_b".toList) ∧
    "a-b".toList ≠ "a_b".toList := by
  decide

theorem map_replChar_inj :
    ∀ (a b : List Char), '_' ∉ a → '_' ∉ b → a.map replChar = b.map replChar → a = b := by
  intro a
  induction a with
  | nil =>
    intro b _ _ h
    cases b with
    | nil => rfl
    | cons y ys => simp at h
  | cons x xs ih =>
    intro b hna hnb h
    cases b with
    | nil => simp at h
    | cons y ys =>
      simp only [List.map_cons, List.cons.injEq] at h
      simp only [List.mem_cons, not_or] at hna hnb
      have hhead : x = y := by
        by_cases hx : x = '-' <;> by_cases hy : y = '-'
        · rw [hx, hy]
        · exfalso
          have := h.1
          rw [replChar, replChar, if_pos hx, if_neg hy] at this
          exact hnb.1 this
        · exfalso
          have := h.1
          rw [replChar, replChar, if_pos hy, if_neg hx] at this
          exact hna.1 this.symm
        · have := h.1
          rwa [replChar, replChar, if_neg hx, if_neg hy] at this
      rw [hhead, ih ys hna.2 hnb.2 h.2]

/-- Claim C8 (amended): the derived collection name is deterministic (it
is a pure function of `course_id`), always at most 63 characters
(`7 + 50`), and distinct course ids yield distinct names as long as the
ids are at most 50 characters and contain no underscore (the
`'-' → '_'` replacement and the 50-character truncation are the only
sources of collisions). -/
theorem get_collection_name_amended :
    (∀ cid : List Char, (get_collection_name cid).length ≤ 63) ∧
    (∀ a b : List Char, a.length ≤ 50 → b.length ≤ 50 →
      '_' ∉ a → '_' ∉ b →
      get_collection_name a = get_collection_name b → a = b) := by
  constructor
  · intro cid
    simp only [get_collection_name, List.length_append, List.length_take, List.length_map]
    have h1 := Nat.min_le_left 50 cid.length
    have h7 : ("course_".toList).length = 7 := by rfl
    omega
  · intro a b ha hb hna hnb h
    unfold get_collection_name at h
    have h2 := List.append_cancel_left h
    rw [List.take_of_length_le (by simpa using ha),
      List.take_of_length_le (by simpa using hb)] at h2
    exact map_replChar_inj a b hna hnb h2

theorem get_collection_name_amended_witness :
    (get_collection_name ("ab".toList)).length ≤ 63 ∧
    (("ab".toList : List Char).length ≤ 50 ∧ '_' ∉ "ab".toList ∧
      get_collection_name ("ab".toList) = get_collection_name ("ab".toList) ∧
      ("ab".toList : List Char) = "ab".toList) :=
  ⟨get_collection_name_amended.1 ("ab".toList),
    by decide, by decide, rfl,
    get_collection_name_amended.2 ("ab".toList) ("ab".toList)
      (by decide) (by decide) (by decide) (by decide) rfl⟩

/-- Claim C6: at most 3 attempts; exactly one backoff wait between
consecutive attempts and none before the first; the waits are the
exponential-backoff values clamped into `[2, 10]`; a first-attempt success
ends the call immediately with no waits; if all three attempts fail (model
error or parse failure alike) a terminal error is surfaced; and the
JSON-only instruction is always appended to the system prompt. -/
theorem generate_json_retry_contract (parse : String → Except String Json)
    (model : Nat → AttemptOutcome) (sys : Option String) :
    (generate_json parse model sys).1.attemptsMade ≤ 3 ∧
    (generate_json parse model sys).1.waits.length =
      (generate_json parse model sys).1.attemptsMade - 1 ∧
    (generate_json parse model sys).1.waits =
      List.take ((generate_json parse model sys).1.attemptsMade - 1)
        [waitExponential 2 10 1, waitExponential 2 10 2] ∧
    (∀ w ∈ (generate_json parse model sys).1.waits, 2 ≤ w ∧ w ≤ 10) ∧
    (∀ j, attemptOnce parse (model 1) = Except.ok j →
      (generate_json parse model sys).1 = ⟨Except.ok j, 1, []⟩) ∧
    ((∀ k, 1 ≤ k → k ≤ 3 → ∃ e, attemptOnce parse (model k) = Except.error e) →
      ∃ e2, (generate_json parse model sys).1.result = Except.error e2) ∧
    (generate_json parse model sys).2 = (sys.getD "") ++ jsonInstruction := by
  have hw1 : waitExponential 2 10 1 = 2 := by decide
  have hw2 : waitExponential 2 10 2 = 4 := by decide
  rcases h1 : attemptOnce parse (model 1) with e1 | j1
  · rcases h2 : attemptOnce parse (model 2) with e2 | j2
    · rcases h3 : attemptOnce parse (model 3) with e3 | j3
      · -- all three attempts fail
        have hrun : (generate_json parse model sys).1 =
            ⟨Except.error ("RetryError: " ++ e3), 3, [2, 4]⟩ := by
          simp [generate_json, retryGo, h1, h2, h3, hw1, hw2]
        refine ⟨by simp [hrun], by simp [hrun], by simp [hrun, hw1, hw2], ?_, ?_, ?_, rfl⟩
        · intro w hw
          simp [hrun] at hw
          rcases hw with rfl | rfl
          · decide
          · decide
        · intro j hj
          exact absurd hj (by simp)
        · intro _
          exact ⟨"RetryError: " ++ e3, by simp [hrun]⟩
      · -- third attempt succeeds
        have hrun : (generate_json parse model sys).1 = ⟨Except.ok j3, 3, [2, 4]⟩ := by
          simp [generate_json, retryGo, h1, h2, h3, hw1, hw2]
        refine ⟨by simp [hrun], by simp [hrun], by simp [hrun, hw1, hw2], ?_, ?_, ?_, rfl⟩
        · intro w hw
          simp [hrun] at hw
          rcases hw with rfl | rfl
          · decide
          · decide
        · intro j hj
          exact absurd hj (by simp)
        · intro hall
          obtain ⟨e, he⟩ := hall 3 (by omega) (by omega)
          rw [h3] at he
          exact absurd he (by simp)
    · -- second attempt succeeds
      have hrun : (generate_json parse model sys).1 = ⟨Except.ok j2, 2, [2]⟩ := by
        simp [generate_json, retryGo, h1, h2, hw1]
      refine ⟨by simp [hrun], by simp [hrun], by simp [hrun, hw1], ?_, ?_, ?_, rfl⟩
      · intro w hw
        simp [hrun] at hw
        subst hw
        decide
      · intro j hj
        exact absurd hj (by simp)
      · intro hall
        obtain ⟨e, he⟩ := hall 2 (by omega) (by omega)
        rw [h2] at he
        exact absurd he (by simp)
  · -- first attempt succeeds: no waits at all
    have hrun : (generate_json parse model sys).1 = ⟨Except.ok j1, 1, []⟩ := by
      simp [generate_json, retryGo, h1]
    refine ⟨by simp [hrun], by simp [hrun], by simp [hrun], ?_, ?_, ?_, rfl⟩
    · intro w hw
      simp [hrun] at hw
    · intro j hj
      cases hj
      exact hrun
    · intro hall
      obtain ⟨e, he⟩ := hall 1 (by omega) (by omega)
      rw [h1] at he
      exact absurd he (by simp)

theorem generate_json_retry_contract_witness :
    ((generate_json (fun s => Except.error s)
        (fun _ => AttemptOutcome.modelError "down") none).1.attemptsMade ≤ 3 ∧
      (generate_json (fun s => Except.error s)
        (fun _ => AttemptOutcome.modelError "down") none).1.waits.length =
        (generate_json (fun s => Except.error s)
          (fun _ => AttemptOutcome.modelError "down") none).1.attemptsMade - 1 ∧
      (generate_json (fun s => Except.error s)
        (fun _ => AttemptOutcome.modelError "down") none).1.waits =
        List.take ((generate_json (fun s => Except.error s)
            (fun _ => AttemptOutcome.modelError "down") none).1.attemptsMade - 1)
          [waitExponential 2 10 1, waitExponential 2 10 2] ∧
      (∀ w ∈ (generate_json (fun s => Except.error s)
          (fun _ => AttemptOutcome.modelError "down") none).1.waits, 2 ≤ w ∧ w ≤ 10) ∧
      (∀ j, attemptOnce (fun s => Except.error s)
          ((fun _ => AttemptOutcome.modelError "down") 1) = Except.ok j →
        (generate_json (fun s => Except.error s)
          (fun _ => AttemptOutcome.modelError "down") none).1 = ⟨Except.ok j, 1, []⟩) ∧
      ((∀ k, 1 ≤ k → k ≤ 3 → ∃ e, attemptOnce (fun s => Except.error s)
          ((fun _ => AttemptOutcome.modelError "down") k) = Except.error e) →
        ∃ e2, (generate_json (fun s => Except.error s)
          (fun _ => AttemptOutcome.modelError "down") none).1.result = Except.error e2) ∧
      (generate_json (fun s => Except.error s)
        (fun _ => AttemptOutcome.modelError "down") none).2 =
        ((none : Option String).getD "") ++ jsonInstruction) :=
  generate_json_retry_contract (fun s => Except.error s)
    (fun _ => AttemptOutcome.modelError "down") none

theorem saveSlot_err_evs (s : GState) (t : ContentType) (slot : Option Json)
    (res : Except String Unit) (evs : List DbEvent) (e : String) (evs2 : List DbEvent)
    (h : saveSlot s t slot res evs = Except.error (e, evs2)) : evs2 = evs := by
  unfold saveSlot at h
  rcases ht : truthy slot with _ | j
  · rw [ht] at h
    exact absurd h (by simp)
  · rw [ht] at h
    rcases res with e2 | u
    · simp only [Except.error.injEq, Prod.mk.injEq] at h
      exact h.2.symm
    · exact absurd h (by simp)

theorem saveSlot_ok_sub (s : GState) (t : ContentType) (slot : Option Json)
    (res : Except String Unit) (evs : List DbEvent) (evs2 : List DbEvent)
    (h : saveSlot s t slot res evs = Except.ok evs2) : ∀ ev ∈ evs, ev ∈ evs2 := by
  unfold saveSlot at h
  rcases ht : truthy slot with _ | j
  · rw [ht] at h
    simp only [Except.ok.injEq] at h
    subst h
    exact fun ev hev => hev
  · rw [ht] at h
    rcases res with e2 | u
    · exact absurd h (by simp)
    · simp only [Except.ok.injEq] at h
      subst h
      exact fun ev hev => List.mem_append_left _ hev

/-- If the notes slot is a non-empty object and its insert succeeds, the
notes record is in the event trace of the persistence stage, whatever
happens afterwards (no rollback). -/
theorem save_notes_mem (o : SaveOracle) (s : GState) (j : Json)
    (hn : s.notes = some j) (hne : j.isEmpty = false)
    (hok : o.insertNotes = Except.ok ()) :
    DbEvent.insertRecord ContentType.notes s.lecture_id s.course_id j
      s.context_documents.length ∈ (save_content_node o s).2 := by
  have h1 : saveSlot s ContentType.notes s.notes o.insertNotes [] =
      Except.ok [DbEvent.insertRecord ContentType.notes s.lecture_id s.course_id j
        s.context_documents.length] := by
    rw [hn, hok]
    simp [saveSlot, truthy, hne]
  have hmem : DbEvent.insertRecord ContentType.notes s.lecture_id s.course_id j
      s.context_documents.length ∈
      [DbEvent.insertRecord ContentType.notes s.lecture_id s.course_id j
        s.context_documents.length] := List.mem_singleton.mpr rfl
  unfold save_content_node
  split
  next e evs heq =>
    rw [h1] at heq
    exact absurd heq (by simp)
  next e1 heq =>
    rw [h1] at heq
    simp only [Except.ok.injEq] at heq
    subst heq
    split
    next e evs heq2 =>
      have h3 := saveSlot_err_evs _ _ _ _ _ _ _ heq2
      subst h3
      simp
    next e2 heq2 =>
      have hm2 := saveSlot_ok_sub _ _ _ _ _ _ heq2 _ hmem
      split
      next e evs heq3 =>
        have h4 := saveSlot_err_evs _ _ _ _ _ _ _ heq3
        subst h4
        simpa using hm2
      next e3 heq3 =>
        have hm3 := saveSlot_ok_sub _ _ _ _ _ _ heq3 _ hm2
        split
        · split
          next a heq4 => exact List.mem_append_left _ hm3
          next e heq4 => simpa using hm3
        · simpa using hm3

/-- The persistence stage touches nothing in the state except (possibly)
the error field. -/
theorem save_state_shape (o : SaveOracle) (s : GState) :
    (save_content_node o s).1 = s ∨
      ∃ e, (save_content_node o s).1 = { s with error := some (saveFailMsg e) } := by
  unfold save_content_node
  split
  next e evs heq => exact Or.inr ⟨e, rfl⟩
  next e1 heq =>
    split
    next e evs heq2 => exact Or.inr ⟨e, rfl⟩
    next e2 heq2 =>
      split
      next e evs heq3 => exact Or.inr ⟨e, rfl⟩
      next e3 heq3 =>
        split
        · split
          next a heq4 => exact Or.inl rfl
          next e heq4 => exact Or.inr ⟨e, rfl⟩
        · exact Or.inl rfl

theorem save_error_preserved (o : SaveOracle) (s : GState) (h : s.error ≠ none) :
    (save_content_node o s).1.error ≠ none := by
  rcases save_state_shape o s with hs | ⟨e, hs⟩
  · rw [hs]; exact h
  · rw [hs]; simp

theorem save_completed_preserved (o : SaveOracle) (s : GState) :
    (save_content_node o s).1.completed_types = s.completed_types := by
  rcases save_state_shape o s with hs | ⟨e, hs⟩
  · rw [hs]
  · rw [hs]

/-- Claim C7 (amended): the persistence stage always runs and touches only
the error field; when every write succeeds it writes one record per
non-empty slot in order and then stamps the lecture (when found) as
completed, leaving the state unchanged; a successful notes write stays in
the trace whatever fails later (no rollback); but a notes-write failure
skips the remaining writes and the status update (the three writes are
sequential within one try-block, not independent), recording the error. -/
theorem save_content_node_amended (o : SaveOracle) (s : GState) :
    ((save_content_node o s).1 = s ∨
      ∃ e, (save_content_node o s).1 = { s with error := some (saveFailMsg e) }) ∧
    (o.insertNotes = Except.ok () → o.insertAssignment = Except.ok () →
      o.insertFlashcards = Except.ok () → o.lectureFound = true →
      o.lectureSave = Except.ok () →
      save_content_node o s =
        (s, slotEvents s ++ [DbEvent.lectureCompleted s.lecture_id])) ∧
    (∀ j, s.notes = some j → j.isEmpty = false → o.insertNotes = Except.ok () →
      DbEvent.insertRecord ContentType.notes s.lecture_id s.course_id j
        s.context_documents.length ∈ (save_content_node o s).2) ∧
    (∀ j e, s.notes = some j → j.isEmpty = false → o.insertNotes = Except.error e →
      save_content_node o s = ({ s with error := some (saveFailMsg e) }, [])) := by
  refine ⟨save_state_shape o s, ?_, ?_, ?_⟩
  · intro hN hA hF hLF hLS
    rcases htn : truthy s.notes with _ | jn <;>
      rcases hta : truthy s.assignment with _ | ja <;>
        rcases htf : truthy s.flashcards with _ | jf <;>
          simp [save_content_node, saveSlot, htn, hta, htf, hN, hA, hF, hLF, hLS, slotEvents]
  · intro j hn hne hok
    exact save_notes_mem o s j hn hne hok
  · intro j e hn hne herr
    have h1 : saveSlot s ContentType.notes s.notes o.insertNotes [] =
        Except.error (e, []) := by
      rw [hn, herr]
      simp [saveSlot, truthy, hne]
    unfold save_content_node
    split
    next e2 evs heq =>
      rw [h1] at heq
      simp only [Except.error.injEq, Prod.mk.injEq] at heq
      obtain ⟨rfl, rfl⟩ := heq
      rfl
    next e1 heq =>
      rw [h1] at heq
      exact absurd heq (by simp)

/-- Claim C7 counterexample: the assignment slot is non-null and its own
insert would succeed, yet after the notes insert fails no record at all is
written — the three writes are not independent of one another. -/
theorem save_content_node_counterexample :
    c7State.assignment = some [("title", "a")] ∧
    c7FailOracle.insertAssignment = Except.ok () ∧
    (save_content_node c7FailOracle c7State).2 = [] ∧
    (save_content_node c7FailOracle c7State).1.error =
      some (saveFailMsg "db down") :=
  ⟨rfl, rfl, rfl, rfl⟩

theorem save_content_node_amended_witness :
    save_content_node c7OkOracle c7State =
      (c7State, slotEvents c7State ++ [DbEvent.lectureCompleted c7State.lecture_id]) :=
  (save_content_node_amended c7OkOracle c7State).2.1 rfl rfl rfl rfl rfl

/-- Claim C5: `retrieve_context_node` is a total function of the search
outcome (it never re-raises); a failed search yields the sentinel context
and an empty match list; a successful search with matches (each carrying a
non-empty document text) yields the documents joined by the fixed
separator in the ranking order returned by the index. -/
theorem retrieve_context_contract (s : GState) :
    (∀ e, retrieve_context_node (Except.error e) s =
      { s with context := sentinelContext, context_documents := [] }) ∧
    (∀ results : List SRes, results ≠ [] →
      (∀ r ∈ results, ∃ d, r.document = some d ∧ d ≠ "") →
      (retrieve_context_node (Except.ok results) s).context =
        String.intercalate contextSeparator (results.filterMap (fun r => r.document)) ∧
      (retrieve_context_node (Except.ok results) s).context_documents = results) := by
  constructor
  · intro e
    rfl
  · intro results hne hdocs
    have hfil : (results.filterMap (fun r => r.document)).filter (fun d => d ≠ "") =
        results.filterMap (fun r => r.document) := by
      apply List.filter_eq_self.mpr
      intro d hd
      rw [List.mem_filterMap] at hd
      obtain ⟨r, hr, hdr⟩ := hd
      obtain ⟨d2, hd2, hne2⟩ := hdocs r hr
      rw [hd2] at hdr
      simp only [Option.some.injEq] at hdr
      subst hdr
      simpa using hne2
    have hne3 : results.filterMap (fun r => r.document) ≠ [] := by
      obtain ⟨r, hr⟩ := List.exists_mem_of_ne_nil results hne
      obtain ⟨d, hd, _⟩ := hdocs r hr
      exact List.ne_nil_of_mem (List.mem_filterMap.mpr ⟨r, hr, hd⟩)
    constructor
    · simp only [retrieve_context_node, hfil]
      rw [if_neg (by simpa [List.isEmpty_iff] using hne3)]
    · rfl

theorem retrieve_context_contract_witness :
    retrieve_context_node (Except.error "service down") c5State =
      { c5State with context := sentinelContext, context_documents := [] } ∧
    ([c5Res] ≠ ([] : List SRes) ∧
      (retrieve_context_node (Except.ok [c5Res]) c5State).context =
        String.intercalate contextSeparator ([c5Res].filterMap (fun r => r.document)) ∧
      (retrieve_context_node (Except.ok [c5Res]) c5State).context_documents = [c5Res]) :=
  ⟨(retrieve_context_contract c5State).1 "service down",
    by decide,
    ((retrieve_context_contract c5State).2 [c5Res] (by decide)
      (by
        intro r hr
        simp only [List.mem_singleton] at hr
        subst hr
        exact ⟨"doc one", rfl, by decide⟩)).1,
    ((retrieve_context_contract c5State).2 [c5Res] (by decide)
      (by
        intro r hr
        simp only [List.mem_singleton] at hr
        subst hr
        exact ⟨"doc one", rfl, by decide⟩)).2⟩

/-- Claim C1: with all three content types requested, if the notes stage
succeeds (with a non-empty payload) and the assignment stage's model call
fails (after its retries are exhausted), then whatever the flashcards
stage and the remaining database calls do, the final state's
completed types contain "notes", its error is non-null, and — provided
the notes insert itself succeeds — the persistence stage still writes the
notes record. -/
theorem pipeline_keeps_notes_after_assignment_error (o : StageOracles)
    (lid cid tr title : String) (jn : Json) (ea : String)
    (hjn : jn.isEmpty = false)
    (hng : o.notesGen = Except.ok jn)
    (hag : o.assignmentGen = Except.error ea)
    (hsn : o.save.insertNotes = Except.ok ()) :
    "notes" ∈ (run_content_generation o lid cid tr title none).1.completed_types ∧
    (run_content_generation o lid cid tr title none).1.error ≠ none ∧
    ∃ n, DbEvent.insertRecord ContentType.notes lid cid jn n ∈
      (run_content_generation o lid cid tr title none).2 := by
  have main : ∀ s4 : GState, s4.notes = some jn → s4.error ≠ none →
      "notes" ∈ s4.completed_types → s4.lecture_id = lid → s4.course_id = cid →
      ("notes" ∈ (save_content_node o.save s4).1.completed_types ∧
        (save_content_node o.save s4).1.error ≠ none ∧
        ∃ n, DbEvent.insertRecord ContentType.notes lid cid jn n ∈
          (save_content_node o.save s4).2) := by
    intro s4 h1 h2 h3 h4 h5
    refine ⟨?_, save_error_preserved _ _ h2, ?_⟩
    · rw [save_completed_preserved]
      exact h3
    · refine ⟨s4.context_documents.length, ?_⟩
      have hm := save_notes_mem o.save s4 jn h1 hjn hsn
      rw [h4, h5] at hm
      exact hm
  obtain ⟨C, D, hs1⟩ : ∃ C D,
      retrieve_context_node o.search
        (initialState lid cid tr title ["notes", "assignment", "flashcards"]) =
      { initialState lid cid tr title ["notes", "assignment", "flashcards"] with
        context := C, context_documents := D } := by
    rcases o.search with e | results
    · exact ⟨sentinelContext, [], rfl⟩
    · exact ⟨_, _, rfl⟩
  have hgd : (none : Option (List String)).getD ["notes", "assignment", "flashcards"] =
      ["notes", "assignment", "flashcards"] := rfl
  have hrun : ∀ s4, generate_flashcards_node o.flashcardsGen
        (generate_assignment_node o.assignmentGen
          (generate_notes_node o.notesGen
            (retrieve_context_node o.search
              (initialState lid cid tr title ["notes", "assignment", "flashcards"])))) = s4 →
      run_content_generation o lid cid tr title none = save_content_node o.save s4 := by
    intro s4 h
    unfold run_content_generation runPipeline
    rw [hgd, ← h]
  have hs2 : generate_notes_node o.notesGen
      ({ initialState lid cid tr title ["notes", "assignment", "flashcards"] with
        context := C, context_documents := D }) =
      { initialState lid cid tr title ["notes", "assignment", "flashcards"] with
        context := C, context_documents := D, notes := some jn,
        completed_types := [] ++ ["notes"] } := by
    rw [hng]
    unfold generate_notes_node
    rw [if_neg (by simp [initialState])]
    rfl
  have hs3 : generate_assignment_node o.assignmentGen
      ({ initialState lid cid tr title ["notes", "assignment", "flashcards"] with
        context := C, context_documents := D, notes := some jn,
        completed_types := [] ++ ["notes"] }) =
      { initialState lid cid tr title ["notes", "assignment", "flashcards"] with
        context := C, context_documents := D, notes := some jn,
        completed_types := [] ++ ["notes"],
        error := some ("Assignment generation failed: " ++ ea) } := by
    rw [hag]
    unfold generate_assignment_node
    rw [if_neg (by simp [initialState])]
  rcases hf : o.flashcardsGen with ef | jf
  · -- the flashcards stage also fails: it overwrites the error message
    have hs4 : generate_flashcards_node o.flashcardsGen
        ({ initialState lid cid tr title ["notes", "assignment", "flashcards"] with
          context := C, context_documents := D, notes := some jn,
          completed_types := [] ++ ["notes"],
          error := some ("Assignment generation failed: " ++ ea) }) =
        { initialState lid cid tr title ["notes", "assignment", "flashcards"] with
          context := C, context_documents := D, notes := some jn,
          completed_types := [] ++ ["notes"],
          error := some ("Flashcards generation failed: " ++ ef) } := by
      rw [hf]
      unfold generate_flashcards_node
      rw [if_neg (by simp [initialState])]
    have hr := hrun _ (by rw [hs1, hs2, hs3, hs4])
    rw [hr]
    exact main _ rfl (by simp) (by simp) rfl rfl
  · -- the flashcards stage succeeds: the assignment error survives
    have hs4 : generate_flashcards_node o.flashcardsGen
        ({ initialState lid cid tr title ["notes", "assignment", "flashcards"] with
          context := C, context_documents := D, notes := some jn,
          completed_types := [] ++ ["notes"],
          error := some ("Assignment generation failed: " ++ ea) }) =
        { initialState lid cid tr title ["notes", "assignment", "flashcards"] with
          context := C, context_documents := D, notes := some jn,
          completed_types := ([] ++ ["notes"]) ++ ["flashcards"],
          error := some ("Assignment generation failed: " ++ ea),
          flashcards := some jf } := by
      rw [hf]
      unfold generate_flashcards_node
      rw [if_neg (by simp [initialState])]
    have hr := hrun _ (by rw [hs1, hs2, hs3, hs4])
    rw [hr]
    exact main _ rfl (by simp) (by simp) rfl rfl

theorem pipeline_keeps_notes_after_assignment_error_witness :
    "notes" ∈ (run_content_generation c1Oracle "L9" "C9" "t" "T" none).1.completed_types ∧
    (run_content_generation c1Oracle "L9" "C9" "t" "T" none).1.error ≠ none ∧
    ∃ n, DbEvent.insertRecord ContentType.notes "L9" "C9" [("title", "Lecture notes")] n ∈
      (run_content_generation c1Oracle "L9" "C9" "t" "T" none).2 :=
  pipeline_keeps_notes_after_assignment_error c1Oracle "L9" "C9" "t" "T"
    [("title", "Lecture notes")] "rate limited three times"
    (by decide) rfl rfl rfl

end TAP
